import Mathlib

/-!
Verification development for the go-links server (`src/server/src/main.py`)
and its shortcut-resolution specification.  Pure-code parts of `main.py`
(route registration, the static-path safety check, the CSP hook, the durable
session hook, the `/` handler) are embedded directly from the source; the
shortcut resolution engine (normalizer, scope resolver, template expander,
orchestrator) is not present under `src/` and is modelled from the spec.
-/

/-- `pre` is a leading substring of `s` (Python `s.startswith(pre)`). -/
def strStartsWith (pre s : String) : Bool :=
  pre.data.isPrefixOf s.data

/-- `suf` is a trailing substring of `s` (Python `s.endswith(suf)`). -/
def strEndsWith (suf s : String) : Bool :=
  suf.data.reverse.isPrefixOf s.data.reverse

/-- Split a character list on `/` (Python `str.split("/")`): always returns at
least one component; empty components are kept. -/
def splitOnSlash : List Char → List (List Char)
  | [] => [[]]
  | c :: rest =>
    if c = '/' then [] :: splitOnSlash rest
    else
      match splitOnSlash rest with
      | [] => [[c]]
      | g :: gs => (c :: g) :: gs

/-- Join path segments with `/` (Python `"/".join(segs)`). -/
def joinSegs (segs : List String) : String :=
  String.intercalate "/" segs

/-- The components of a string split on `/`. -/
def pathComps (s : String) : List String :=
  (splitOnSlash s.data).map String.mk

/-- Number of leading slashes significant to POSIX `normpath`: two exactly
when the path starts with `//` but not `///`, else one when it starts with
`/`, else zero. -/
def initialSlashes (s : String) : Nat :=
  if strStartsWith "//" s ∧ ¬ strStartsWith "///" s then 2
  else if strStartsWith "/" s then 1
  else 0

/-- The component loop of CPython `posixpath.normpath`, with the pending
output kept reversed in `stack`.  `""` and `"."` are skipped; `".."` pops a
previous component, is kept when the path is relative and nothing can be
popped or when the previous kept component is itself `".."`, and is dropped
at the root of an absolute path. -/
def normAux (isabs : Bool) (stack : List String) : List String → List String
  | [] => stack.reverse
  | comp :: rest =>
    if comp = "" ∨ comp = "." then normAux isabs stack rest
    else if comp ≠ ".." ∨ (¬ isabs ∧ stack = []) ∨ stack.head? = some ".." then
      normAux isabs (comp :: stack) rest
    else
      match stack with
      | _ :: s2 => normAux isabs s2 rest
      | [] => normAux isabs [] rest

/-- CPython `posixpath.normpath`: collapse `//`, drop `.`, resolve `..`
textually, preserving one or two initial slashes; empty input gives `"."`. -/
def normpath (s : String) : String :=
  if s = "" then "."
  else
    let slashes := initialSlashes s
    let ncomps := normAux (slashes > 0) [] (pathComps s)
    let out := String.mk (List.replicate slashes '/') ++ joinSegs ncomps
    if out = "" then "." else out

/-- CPython `posixpath.join` for two arguments: an absolute second argument
replaces the first, otherwise the two are joined with a single `/`. -/
def pjoin (a b : String) : String :=
  if strStartsWith "/" b then b
  else if a = "" ∨ strEndsWith "/" a then a ++ b
  else a ++ "/" ++ b

/-- CPython `posixpath.abspath` with the working directory made explicit:
a relative path is joined to `cwd`, then the result is normalized. -/
def abspath (cwd s : String) : String :=
  if strStartsWith "/" s then normpath s else normpath (pjoin cwd s)

/-- `_is_safe_path` from `main.py`: resolve both the base and the joined
user path to absolute normalized paths and test that the base is a string
prefix of the user path (`user_path.startswith(base_path)`). -/
def is_safe_path (cwd base_path user_input : String) : Bool :=
  let base := abspath cwd base_path
  let userPath := abspath cwd (pjoin base user_input)
  strStartsWith base userPath

/-- Outcome of a static-file handler in `main.py`: either the literal
`("Invalid path", 400)` response or `send_from_directory(dir, path)`. -/
inductive StaticResponse where
  | invalid (body : String) (code : Nat)
  | serveFrom (dir : String) (path : String)
deriving DecidableEq

/-- `static_style_files` from `main.py`. -/
def static_style_files (cwd path : String) : StaticResponse :=
  if ¬ is_safe_path cwd "/_styles" path then .invalid "Invalid path" 400
  else .serveFrom "static/_styles" path

/-- `static_script_files` from `main.py`. -/
def static_script_files (cwd path : String) : StaticResponse :=
  if ¬ is_safe_path cwd "/_scripts" path then .invalid "Invalid path" 400
  else .serveFrom "static/_scripts" path

/-- `static_image_files` from `main.py`. -/
def static_image_files (cwd path : String) : StaticResponse :=
  if ¬ is_safe_path cwd "/_images" path then .invalid "Invalid path" 400
  else .serveFrom "static/_images" path

/-- `static_next_files` from `main.py`. -/
def static_next_files (cwd path : String) : StaticResponse :=
  if ¬ is_safe_path cwd "/_next_static" path then .invalid "Invalid path" 400
  else .serveFrom "static/templates/_next_static" path

/-- The resolved path `u` stays within the base directory `b`: it is `b`
itself or lies strictly below it (past a `/` boundary). -/
def withinBase (b u : String) : Bool :=
  u == b || strStartsWith (b ++ "/") u

/-- A Flask blueprint as `add_routes` sees it: its name and which request
paths its registered routes match.  The matchers of `base_routes`,
`link_routes` and `user_routes` live in modules not present under `src/`, so
they are parameters; `follow_routes` matches any URL (comment at its
registration site in `main.py`). -/
structure Blueprint where
  name : String
  routeMatches : String → Bool

/-- `base_routes` with its (unknown) matcher. -/
def base_routes (m : String → Bool) : Blueprint := ⟨"base_routes", m⟩

/-- `link_routes` with its (unknown) matcher. -/
def link_routes (m : String → Bool) : Blueprint := ⟨"link_routes", m⟩

/-- `user_routes` with its (unknown) matcher. -/
def user_routes (m : String → Bool) : Blueprint := ⟨"user_routes", m⟩

/-- `follow_routes`: the catch-all routing blueprint, "registered last since
it matches any URL" (`main.py`). -/
def follow_routes : Blueprint := ⟨"follow_routes", fun _ => true⟩

/-- `COMMERCIAL_BLUEPRINTS` from `add_routes` in `main.py`: the empty list. -/
def COMMERCIAL_BLUEPRINTS : List Blueprint := []

/-- `add_routes` from `main.py`: the order in which blueprints are registered
on the app — base, links, users, each commercial blueprint, then the
catch-all `follow_routes` last. -/
def add_routes (base links users : Blueprint) (commercial : List Blueprint) :
    List Blueprint :=
  [base, links, users] ++ commercial ++ [follow_routes]

/-- First-match dispatch over the registered blueprints, in registration
order: the name of the first blueprint whose matcher accepts the path. -/
def dispatch (bps : List Blueprint) (path : String) : Option String :=
  match bps with
  | [] => none
  | b :: rest => if b.routeMatches path then some b.name else dispatch rest path

/-- An HTTP response reduced to its header list. -/
structure HttpResponse where
  headers : List (String × String)
deriving DecidableEq

/-- First header value stored under key `k`. -/
def getHeader (r : HttpResponse) (k : String) : Option String :=
  (r.headers.find? (fun p => p.1 == k)).map Prod.snd

/-- The response carries a header named `k`
(Python `k in response.headers`). -/
def hasHeader (r : HttpResponse) (k : String) : Bool :=
  (getHeader r k).isSome

/-- The default Content-Security-Policy set by `apply_csp` in `main.py`. -/
def DEFAULT_CSP : String :=
  "default-src 'self' data:; style-src 'self' fonts.googleapis.com 'unsafe-inline'; font-src fonts.gstatic.com; base-uri 'self'"

/-- `apply_csp` from `main.py`: the `after_request` hook adds the default
Content-Security-Policy to a response that does not already carry one and
returns every other response unchanged. -/
def apply_csp (r : HttpResponse) : HttpResponse :=
  if hasHeader r "Content-Security-Policy" then r
  else { headers := r.headers ++ [("Content-Security-Policy", DEFAULT_CSP)] }

/-- The Content-Security-Policy the `/` handler (`home` in `main.py`) sets on
the old-frontend home page, parameterized by the per-request nonce. -/
def homeCSP (nonce : String) : String :=
  "default-src 'self'; script-src 'self' maxcdn.bootstrapcdn.com ajax.googleapis.com 'nonce-"
    ++ nonce ++
    "'; style-src 'self' fonts.googleapis.com maxcdn.bootstrapcdn.com 'unsafe-inline'; font-src fonts.gstatic.com maxcdn.bootstrapcdn.com; base-uri 'self';"

/-- The headers of the response built by the `/` handler `home` in `main.py`:
a redirect to the login page (or trot.to) when unauthenticated, the
new-frontend page with no explicit headers when the `new_frontend` feature
flag is on, and otherwise the rendered home page carrying its own
Content-Security-Policy with the per-request nonce. -/
def homeResponse (authenticated : Bool) (host : String) (newFrontend : Bool)
    (nonce : String) : HttpResponse :=
  if ¬ authenticated then
    { headers :=
        [("Location", if host == "trot.to" then "https://www.trot.to" else "/_/auth/login")] }
  else if newFrontend then { headers := [] }
  else { headers := [("Content-Security-Policy", homeCSP nonce)] }

/-- `SIGNIN_DURATION_IN_DAYS` from `main.py`. -/
def SIGNIN_DURATION_IN_DAYS : Int := 30

/-- `SIGNIN_DURATION_IN_DAYS` as a number of seconds (time is modelled in
whole seconds). -/
def signinDurationSeconds : Int := SIGNIN_DURATION_IN_DAYS * 86400

/-- What `session["last_signin"]` can hold: nothing, a usable timestamp
(seconds), or a value whose `.replace`/comparison raises. -/
inductive StoredSignin where
  | absent
  | signinAt (t : Int)
  | corrupt
deriving DecidableEq

/-- Reading `session["last_signin"]` after `session.get` succeeded:
`.error` models the raised exception on a corrupt value. -/
def readLastSignin : StoredSignin → Except Unit (Option Int)
  | .absent => .ok none
  | .signinAt t => .ok (some t)
  | .corrupt => .error ()

/-- `manage_durable_session` from `main.py`, returning `true` exactly when it
calls `logout_user()`: for an authenticated user it logs out when there is no
`last_signin`, when strictly more than `SIGNIN_DURATION_IN_DAYS` have elapsed
since it, or when reading the timestamp raises. -/
def manage_durable_session (authenticated : Bool) (s : StoredSignin)
    (now : Int) : Bool :=
  if authenticated then
    match readLastSignin s with
    | .error _ => true
    | .ok none => true
    | .ok (some t) => if now - t > signinDurationSeconds then true else false
  else false

/-- Modelled from the spec: the requesting identity of a ResolutionRequest —
an authenticated user with a personal namespace and organization/team
namespaces in membership order, or the anonymous marker (spec sections 3 and
4.3). -/
inductive Identity where
  | anonymous
  | user (personalNs : String) (orgs : List String)
deriving DecidableEq

/-- Modelled from the spec: a normalized shortcut key — the sentinel "home"
key that the empty path normalizes to, or a nonempty sequence of path
segments (spec section 4.1). -/
inductive NormKey where
  | home
  | key (segs : List String)
deriving DecidableEq

/-- Lowercase a string character by character (spec section 4.1:
"lowercased"). -/
def lowerStr (s : String) : String :=
  String.mk (s.data.map Char.toLower)

/-- Strip leading and trailing `/` (spec section 4.1: "trimmed of
leading/trailing slashes"). -/
def trimSlashes (s : String) : String :=
  String.mk (((s.data.dropWhile (· = '/')).reverse.dropWhile (· = '/')).reverse)

/-- Collapse each run of whitespace to a single space (spec section 4.1:
"collapsed internal whitespace"); `prevWs` records whether the previous
character was whitespace. -/
def collapseWsAux (prevWs : Bool) : List Char → List Char
  | [] => []
  | c :: cs =>
    if c.isWhitespace then
      if prevWs then collapseWsAux true cs else ' ' :: collapseWsAux true cs
    else c :: collapseWsAux false cs

/-- Collapse internal whitespace runs of a string. -/
def collapseWs (s : String) : String :=
  String.mk (collapseWsAux false s.data)

/-- Modelled from the spec: the Key Normalizer (spec section 4.1), absent
from `src/`.  The raw path is lowercased, trimmed of leading/trailing
slashes and whitespace-collapsed; an empty result is the sentinel home key;
otherwise the path splits into segments, and a leading segment that is a
recognized namespace marker (with at least one segment after it) becomes the
explicit namespace hint. -/
def normalizeKey (markers : List String) (raw : String) :
    NormKey × Option String :=
  let t := collapseWs (trimSlashes (lowerStr raw))
  if t = "" then (.home, none)
  else
    match pathComps t with
    | [] => (.home, none)
    | s :: rest =>
      if s ∈ markers ∧ rest ≠ [] then (.key rest, some s)
      else (.key (s :: rest), none)

/-- Keep the first occurrence of each element, dropping elements already in
`seen` (an order-preserving dedup). -/
def dedupAux {α : Type} [DecidableEq α] (seen : List α) : List α → List α
  | [] => []
  | a :: as =>
    if a ∈ seen then dedupAux seen as else a :: dedupAux (a :: seen) as

/-- Order-preserving deduplication. -/
def dedup {α : Type} [DecidableEq α] (l : List α) : List α :=
  dedupAux [] l

/-- Modelled from the spec: whether `i` is authorized to read namespace `ns`
(spec section 4.3) — an anonymous identity only reads namespaces marked
public; a user reads its personal namespace, its organizations, `global`,
and public namespaces. -/
def readableBy (publicNs : List String) (i : Identity) (ns : String) : Bool :=
  match i with
  | .anonymous => ns ∈ publicNs
  | .user p orgs => ns = p ∨ ns ∈ orgs ∨ ns = "global" ∨ ns ∈ publicNs

/-- The explicit-hint part of the probe order: the hint alone when present
and readable by the identity, else nothing (spec section 4.3). -/
def hintPart (publicNs : List String) (i : Identity) (hint : Option String) :
    List String :=
  match hint with
  | none => []
  | some h => if readableBy publicNs i h then [h] else []

/-- The probe order before forcing `global` last: explicit hint, then the
personal namespace, then each organization namespace in membership order
(spec section 4.3); empty beyond the hint for an anonymous identity. -/
def frontPart (publicNs : List String) (i : Identity) (hint : Option String) :
    List String :=
  hintPart publicNs i hint ++
    (match i with
     | .anonymous => []
     | .user p orgs => p :: orgs)

/-- Modelled from the spec: the Scope Resolver (spec section 4.3), absent
from `src/` — the ordered, deduplicated namespace sequence to probe: hint,
personal, organizations in membership order, and `global` forced last. -/
def scopeOrder (publicNs : List String) (i : Identity)
    (hint : Option String) : List String :=
  (dedup (frontPart publicNs i hint)).filter (fun ns => ns ≠ "global")
    ++ ["global"]

example : normalizeKey [] "" = (.home, none) := by decide
example : normalizeKey [] "/JIRA/ABC-1/" = (.key ["jira", "abc-1"], none) := by decide
example : normalizeKey ["eng"] "eng/oncall" = (.key ["oncall"], some "eng") := by decide
example : scopeOrder [] (.user "u1" ["o1", "o2"]) none = ["u1", "o1", "o2", "global"] := by decide
example : scopeOrder [] .anonymous none = ["global"] := by decide
example : scopeOrder ["pub"] .anonymous (some "pub") = ["pub", "global"] := by decide
example : scopeOrder [] (.user "u1" ["u1", "global"]) none = ["u1", "global"] := by decide

/-- A token of a destination template: a positional placeholder (`%s`) or a
literal character (spec section 4.4). -/
inductive TplToken where
  | ph
  | ch (c : Char)
deriving DecidableEq

/-- Scan a template into tokens, reading each `%s` as one positional
placeholder. -/
def tokenize : List Char → List TplToken
  | [] => []
  | [c] => [.ch c]
  | c :: c2 :: cs =>
    if c = '%' ∧ c2 = 's' then .ph :: tokenize cs
    else .ch c :: tokenize (c2 :: cs)

/-- Number of positional placeholders among the tokens. -/
def countPH : List TplToken → Nat
  | [] => 0
  | .ph :: ts => countPH ts + 1
  | .ch _ :: ts => countPH ts

/-- Number of positional placeholders of a template string. -/
def numPlaceholders (template : String) : Nat :=
  countPH (tokenize template.data)

/-- A character needing no percent-encoding in a substituted value. -/
def isUnreserved (c : Char) : Bool :=
  c.isAlphanum || c = '-' || c = '_' || c = '.' || c = '~'

/-- Hex digit (uppercase) of `n % 16`. -/
def hexDigit (n : Nat) : Char :=
  if n % 16 < 10 then Char.ofNat (48 + n % 16) else Char.ofNat (55 + n % 16)

/-- Percent-encode one character (byte-level detail abstracted to the code
point, enough for the ASCII values the service handles). -/
def encodeChar (c : Char) : List Char :=
  if isUnreserved c then [c]
  else ['%', hexDigit (c.toNat / 16), hexDigit c.toNat]

/-- Modelled from the spec: percent-encoding of one substituted value (spec
section 4.4, "Substituted values are percent-encoded"). -/
def encodeSegment (s : String) : String :=
  String.mk (s.data.flatMap encodeChar)

/-- Substitute path-suffix segments for the placeholders in order: each
placeholder consumes the first remaining segment (empty string when none are
left); returns the rendered string and the unconsumed segments. -/
def substTokens : List TplToken → List String → String × List String
  | [], segs => ("", segs)
  | .ph :: ts, segs =>
    let r := substTokens ts (segs.drop 1)
    (encodeSegment (segs.headD "") ++ r.1, r.2)
  | .ch c :: ts, segs =>
    let r := substTokens ts segs
    (String.singleton c ++ r.1, r.2)

/-- The rendering of tokens against a fixed value list: the j-th placeholder
receives the j-th value, the empty string once the values run out. -/
def renderSpec : List TplToken → List String → String
  | [], _ => ""
  | .ph :: ts, vals => encodeSegment (vals.headD "") ++ renderSpec ts (vals.drop 1)
  | .ch c :: ts, vals => String.singleton c ++ renderSpec ts vals

/-- The split of a path suffix into segments: none for the empty suffix,
otherwise the suffix split on `/` (spec section 4.4). -/
def suffixSegs (suffix : String) : List String :=
  if suffix = "" then [] else pathComps suffix

/-- The extra path suffix appended for the segments beyond the placeholder
count — prefixed with `/`, empty when there are no extra segments (spec
section 4.4: "appended to the end of the final URL as an additional path
suffix, never silently dropped"). -/
def extraSuffix (extras : List String) : String :=
  match extras with
  | [] => ""
  | _ => "/" ++ joinSegs extras

/-- The template contains a wildcard suffix marker. -/
def hasWildcard (template : String) : Bool :=
  template.data.contains '*'

/-- Substitute the (per-segment percent-encoded, slash-preserving) suffix at
the first wildcard marker, the rest of the template kept verbatim. -/
def replaceStar : List Char → String → List Char
  | [], _ => []
  | c :: cs, rep => if c = '*' then rep.data ++ cs else c :: replaceStar cs rep

/-- Modelled from the spec: the Template Expander's rendering (spec section
4.4), absent from `src/` — wildcard templates substitute the suffix at the
marker; templates with positional placeholders substitute the suffix
segments in order and append the unconsumed segments; placeholder-free
templates are returned verbatim, the suffix ignored. -/
def expandCore (template suffix : String) : String :=
  let segs := suffixSegs suffix
  if hasWildcard template then
    String.mk (replaceStar template.data (joinSegs (segs.map encodeSegment)))
  else if numPlaceholders template > 0 then
    let r := substTokens (tokenize template.data) segs
    r.1 ++ extraSuffix r.2
  else template

/-- The rendered destination is a syntactically valid absolute URL (spec
section 4.4's validity requirement, read as carrying an http or https
scheme). -/
def isAbsUrl (s : String) : Bool :=
  strStartsWith "http://" s || strStartsWith "https://" s

/-- Modelled from the spec: the Template Expander (spec section 4.4) — the
rendered destination, or `TemplateExpansionError` (the `.error` case) when
the result is not a valid absolute URL. -/
def expand (template suffix : String) : Except Unit String :=
  let r := expandCore template suffix
  if isAbsUrl r then .ok r else .error ()

example : expand "https://issues.example.com/browse/%s" "abc-1" =
    .ok "https://issues.example.com/browse/abc-1" := rfl
example : expand "https://ex.com/%s/%s" "a" = .ok "https://ex.com/a/" := rfl
example : expand "https://ex.com/%s" "a/b/c" = .ok "https://ex.com/a/b/c" := rfl
example : expand "https://ex.com/x" "a/b" = .ok "https://ex.com/x" := rfl
example : expand "https://pager.example.com/escalate/*" "primary" =
    .ok "https://pager.example.com/escalate/primary" := rfl
example : expand "not-a-url/%s" "a" = .error () := rfl

/-- Modelled from the spec: the Shortcut Repository's persisted state (spec
section 4.2), absent from `src/` — an association of `(namespace, key)` to
the stored destination template, read through `lookup`. -/
def Repo : Type := List ((String × String) × String)

/-- Modelled from the spec: `lookup(namespace, key)` — the destination
template of the shortcut stored under `(ns, k)`, or `NotFound` (`none`). -/
def lookup (repo : Repo) (ns k : String) : Option String :=
  match repo with
  | [] => none
  | ((n, key), d) :: rest => if n = ns ∧ key = k then some d else lookup rest ns k

/-- The prefix/suffix splits of the typed key's segments, longest matched
prefix first: `[(segs, []), (segs minus last, [last]), …, ([first], rest)]`
(spec section 4.5 step 4, "progressively shorter prefixes of the path,
longest prefix first"). -/
def splitsDesc : List String → List (List String × List String)
  | [] => []
  | s :: rest =>
    (splitsDesc rest).map (fun pr => (s :: pr.1, pr.2)) ++ [([s], rest)]

/-- One candidate of the orchestrator's search: the namespace it was found
in, the matched key, the stored template, and the path suffix left over. -/
structure Candidate where
  ns : String
  key : String
  template : String
  suffix : String
deriving DecidableEq

/-- Modelled from the spec: the ordered candidate sequence of the Resolution
Orchestrator (spec section 4.5 steps 3-4) — for each prefix of the typed
segments, longest first (the full key giving the exact-match pass), each
namespace of the scope chain in priority order contributes its stored
shortcut, if any. -/
def candidatesFor (chain : List String) (repo : Repo) (segs : List String) :
    List Candidate :=
  (splitsDesc segs).flatMap (fun pr =>
    chain.filterMap (fun ns =>
      (lookup repo ns (joinSegs pr.1)).map (fun tpl =>
        ⟨ns, joinSegs pr.1, tpl, joinSegs pr.2⟩)))

/-- Modelled from the spec: a ResolutionResult (spec section 3) extended with
the two outcomes of the `/` handler in `main.py` (`home`), to which the
orchestrator delegates the sentinel home key: an auth redirect or the
rendered home page. -/
inductive ResolutionResult where
  | redirect (dest : String) (ns : String) (key : String)
  | fallback (query : String)
  | ambiguous (candidates : List (String × String))
  | homeRedirect (dest : String)
  | homePage
deriving DecidableEq

/-- The result is a Fallback. -/
def isFallback : ResolutionResult → Bool
  | .fallback _ => true
  | _ => false

/-- Walk the candidates in order and return the first whose template expands
to a valid destination; a candidate whose expansion raises
`TemplateExpansionError` is skipped and the walk continues (spec section 7:
"recovered by skipping that candidate and continuing to the next
scope/prefix rather than aborting resolution"). -/
def firstRedirect : List Candidate → Option ResolutionResult
  | [] => none
  | c :: rest =>
    match expand c.template c.suffix with
    | .ok url => some (.redirect url c.ns c.key)
    | .error _ => firstRedirect rest

/-- Modelled from the spec: the Resolution Orchestrator's search over a
normalized key (spec section 4.5 steps 3-5): the first candidate that
expands wins, and a full miss is a Fallback carrying the original typed
text. -/
def resolveCore (chain : List String) (repo : Repo) (segs : List String)
    (raw : String) : ResolutionResult :=
  match firstRedirect (candidatesFor chain repo segs) with
  | some r => r
  | none => .fallback raw

/-- The `/` handler `home` of `main.py`, reduced to its resolution outcome:
anonymous callers are redirected to trot.to or the login page, authenticated
users get the rendered home page (old or new frontend) — never a fallback
search. -/
def homeOutcome (host : String) (i : Identity) : ResolutionResult :=
  match i with
  | .anonymous =>
    .homeRedirect (if host == "trot.to" then "https://www.trot.to" else "/_/auth/login")
  | .user _ _ => .homePage

/-- Modelled from the spec: `resolve(raw_path, identity)` (spec section 6) —
normalize, treat the sentinel home key specially via the `/` handler,
otherwise search the scope chain in order. -/
def resolve (publicNs markers : List String) (repo : Repo) (host : String)
    (raw : String) (i : Identity) : ResolutionResult :=
  match normalizeKey markers raw with
  | (.home, _) => homeOutcome host i
  | (.key segs, hint) => resolveCore (scopeOrder publicNs i hint) repo segs raw

example : resolve [] [] [(("global", "jira"), "https://issues.example.com/browse/%s")]
    "go" "/JIRA/ABC-1" .anonymous =
    .redirect "https://issues.example.com/browse/abc-1" "global" "jira" := by decide
example : resolve [] [] [(("u1", "docs"), "https://personal"), (("global", "docs"), "https://global")]
    "go" "docs" (.user "u1" []) = .redirect "https://personal" "u1" "docs" := by decide
example : resolve [] [] [(("u1", "docs"), "https://personal"), (("global", "docs"), "https://global")]
    "go" "docs" (.user "u2" []) = .redirect "https://global" "global" "docs" := by decide
example : resolve [] [] [] "go" "nope" .anonymous = .fallback "nope" := by decide
example : resolve [] [] [] "go" "" .anonymous = .homeRedirect "/_/auth/login" := by decide
example : resolve [] [] [(("global", "eng/oncall"), "https://pager.example.com/escalate/*")]
    "go" "eng/oncall/primary" .anonymous =
    .redirect "https://pager.example.com/escalate/primary" "global" "eng/oncall" := by decide
example : resolve [] [] [(("u1", "docs"), "corrupt"), (("global", "docs"), "https://global")]
    "go" "docs" (.user "u1" []) = .redirect "https://global" "global" "docs" := by decide

lemma hasHeader_append_self (hs : List (String × String)) (k v : String) :
    hasHeader ⟨hs ++ [(k, v)]⟩ k = true := by
  induction hs with
  | nil => simp [hasHeader, getHeader]
  | cons h t ih =>
    by_cases hk : h.1 == k <;>
      simp_all [hasHeader, getHeader, List.find?_cons]

lemma getLast?_append_singleton {α : Type} (l : List α) (a : α) :
    (l ++ [a]).getLast? = some a := by
  induction l with
  | nil => rfl
  | cons x xs ih =>
    cases xs with
    | nil => rfl
    | cons y ys => simpa [List.getLast?_cons_cons] using ih

lemma apply_csp_has (r : HttpResponse) :
    hasHeader (apply_csp r) "Content-Security-Policy" = true := by
  by_cases h : hasHeader r "Content-Security-Policy"
  · simp [apply_csp, h]
  · simpa [apply_csp, h] using
      hasHeader_append_self r.headers "Content-Security-Policy" DEFAULT_CSP

example : normpath "/_styles/../x" = "/x" := by decide

/-- C1: in `add_routes`, the catch-all blueprint `follow_routes` is
registered after `base_routes`, `link_routes`, `user_routes` and every
commercial blueprint, so under first-match dispatch in registration order a
request path matched by one of the specific blueprints is never answered by
the catch-all. -/
theorem C1_catchall_last_specific_wins
    (mb ml mu : String → Bool) (commercial : List Blueprint) (path : String) :
    (add_routes (base_routes mb) (link_routes ml) (user_routes mu)
        commercial).getLast? = some follow_routes
  ∧ ((mb path || ml path || mu path) = true →
      dispatch (add_routes (base_routes mb) (link_routes ml) (user_routes mu)
        commercial) path ≠ some "follow_routes") := by
  constructor
  · exact getLast?_append_singleton
      ([base_routes mb, link_routes ml, user_routes mu] ++ commercial)
      follow_routes
  · intro hmatch
    cases hb : mb path with
    | true => simp [dispatch, add_routes, base_routes, hb]
    | false =>
      cases hl : ml path with
      | true => simp [dispatch, add_routes, base_routes, link_routes, hb, hl]
      | false =>
        cases hm : mu path with
        | true =>
          simp [dispatch, add_routes, base_routes, link_routes, user_routes,
            hb, hl, hm]
        | false => simp [hb, hl, hm] at hmatch

/-- C1 witness: a concrete base-route matcher matching `/x`; the catch-all
is last and the request for `/x` is not dispatched to it. -/
theorem C1_witness :
    (add_routes (base_routes (fun s => s == "/x")) (link_routes (fun _ => false))
        (user_routes (fun _ => false)) []).getLast? = some follow_routes
  ∧ dispatch (add_routes (base_routes (fun s => s == "/x"))
        (link_routes (fun _ => false)) (user_routes (fun _ => false)) []) "/x"
      ≠ some "follow_routes" := by
  have h := C1_catchall_last_specific_wins (fun s => s == "/x")
    (fun _ => false) (fun _ => false) [] "/x"
  exact ⟨h.1, h.2 (by decide)⟩

/-- C2 counterexample: the user path `../_stylesx` joined to the base
`/_styles` resolves to `/_stylesx`, outside the base directory, yet
`static_style_files` does not answer 400 — it proceeds to serve — because
`_is_safe_path`'s `startswith` test accepts the sibling directory whose name
extends the base name. -/
theorem C2_counterexample :
    withinBase (abspath "/" "/_styles")
        (abspath "/" (pjoin (abspath "/" "/_styles") "../_stylesx")) = false
  ∧ static_style_files "/" "../_stylesx"
      = .serveFrom "static/_styles" "../_stylesx" := by decide

/-- C2 amended: each static handler returns the 400 `Invalid path` response
exactly when the absolute path obtained by joining the user path to the
handler's base directory does not carry the base directory's absolute path
as a string prefix; the prefix test does not require a path-separator
boundary, so resolving into a sibling directory whose name extends the base
name is not rejected. -/
theorem C2_static_handlers_prefix_guard (cwd path : String) :
    (static_style_files cwd path = .invalid "Invalid path" 400 ↔
      strStartsWith (abspath cwd "/_styles")
        (abspath cwd (pjoin (abspath cwd "/_styles") path)) = false)
  ∧ (static_script_files cwd path = .invalid "Invalid path" 400 ↔
      strStartsWith (abspath cwd "/_scripts")
        (abspath cwd (pjoin (abspath cwd "/_scripts") path)) = false)
  ∧ (static_image_files cwd path = .invalid "Invalid path" 400 ↔
      strStartsWith (abspath cwd "/_images")
        (abspath cwd (pjoin (abspath cwd "/_images") path)) = false)
  ∧ (static_next_files cwd path = .invalid "Invalid path" 400 ↔
      strStartsWith (abspath cwd "/_next_static")
        (abspath cwd (pjoin (abspath cwd "/_next_static") path)) = false) := by
  refine ⟨?_, ?_, ?_, ?_⟩
  · by_cases h : is_safe_path cwd "/_styles" path <;>
      simp_all [static_style_files, is_safe_path]
  · by_cases h : is_safe_path cwd "/_scripts" path <;>
      simp_all [static_script_files, is_safe_path]
  · by_cases h : is_safe_path cwd "/_images" path <;>
      simp_all [static_image_files, is_safe_path]
  · by_cases h : is_safe_path cwd "/_next_static" path <;>
      simp_all [static_next_files, is_safe_path]

/-- C2 witness: `..` resolves to `/`, which fails the prefix test, and the
style handler answers 400. -/
theorem C2_witness : static_style_files "/" ".." = .invalid "Invalid path" 400 :=
  (C2_static_handlers_prefix_guard "/" "..").1.mpr (by decide)

/-- C9: every response passed through the `apply_csp` after-request hook
carries a Content-Security-Policy header; a response that already has one —
such as the old-frontend home page, which sets its nonce-bearing policy — is
returned unchanged, keeping its own policy. -/
theorem C9_csp_on_every_response (r : HttpResponse) (host nonce : String) :
    hasHeader (apply_csp r) "Content-Security-Policy" = true
  ∧ (hasHeader r "Content-Security-Policy" = true → apply_csp r = r)
  ∧ (∀ auth nf : Bool,
      hasHeader (apply_csp (homeResponse auth host nf nonce))
        "Content-Security-Policy" = true)
  ∧ apply_csp (homeResponse true host false nonce)
      = homeResponse true host false nonce
  ∧ getHeader (apply_csp (homeResponse true host false nonce))
      "Content-Security-Policy" = some (homeCSP nonce) := by
  refine ⟨apply_csp_has r, ?_, fun auth nf => apply_csp_has _, ?_, ?_⟩
  · intro h; simp [apply_csp, h]
  · simp [apply_csp, hasHeader, getHeader, homeResponse]
  · simp [apply_csp, hasHeader, getHeader, homeResponse]

/-- C9 witness: a headerless response gets the default policy; a response
already carrying a policy is untouched; the home page keeps its own. -/
theorem C9_witness :
    hasHeader (apply_csp ⟨[]⟩) "Content-Security-Policy" = true
  ∧ apply_csp ⟨[("Content-Security-Policy", "p")]⟩
      = ⟨[("Content-Security-Policy", "p")]⟩
  ∧ getHeader (apply_csp (homeResponse true "go" false "n0"))
      "Content-Security-Policy" = some (homeCSP "n0") := by
  refine ⟨(C9_csp_on_every_response ⟨[]⟩ "go" "n0").1, ?_, ?_⟩
  · exact (C9_csp_on_every_response ⟨[("Content-Security-Policy", "p")]⟩
      "go" "n0").2.1 (by decide)
  · exact (C9_csp_on_every_response ⟨[]⟩ "go" "n0").2.2.2.2

/-- C10: for an authenticated user the durable-session hook leaves the
session authenticated exactly when `last_signin` reads back as a usable
timestamp at most `SIGNIN_DURATION_IN_DAYS` (in seconds) in the past; a
missing timestamp, a raised exception, or more than 30 elapsed days all log
the user out. -/
theorem C10_signin_duration (s : StoredSignin) (now : Int) :
    manage_durable_session true s now = false ↔
      ∃ t, readLastSignin s = .ok (some t)
        ∧ now - t ≤ SIGNIN_DURATION_IN_DAYS * 86400 := by
  cases s with
  | absent => simp [manage_durable_session, readLastSignin]
  | corrupt => simp [manage_durable_session, readLastSignin]
  | signinAt t =>
    by_cases h : now - t > signinDurationSeconds <;>
      simp_all [manage_durable_session, readLastSignin, signinDurationSeconds,
        SIGNIN_DURATION_IN_DAYS]
    omega

/-- C10 witness: a sign-in recorded now keeps the session, and the theorem
recovers the bounded elapsed time. -/
theorem C10_witness :
    ∃ t, readLastSignin (.signinAt 0) = .ok (some t)
      ∧ (0 : Int) - t ≤ SIGNIN_DURATION_IN_DAYS * 86400 :=
  (C10_signin_duration (.signinAt 0) 0).mp (by decide)
example : abspath "/" (pjoin "/_styles" "../_stylesx") = "/_stylesx" := by decide
example : is_safe_path "/" "/_styles" "../_stylesx" = true := by decide
example : is_safe_path "/" "/_styles" ".." = false := by decide
example : withinBase "/_styles" "/_stylesx" = false := by decide
example : is_safe_path "/" "/_styles" "a/b.css" = true := by decide

lemma normalizeKey_empty (markers : List String) :
    normalizeKey markers "" = (.home, none) := rfl

/-- C3: resolving the empty path never yields a Fallback for any identity:
the empty path normalizes to the sentinel home key, which resolution hands
to the `/` handler — an auth redirect or the rendered home page, never a
fallback search. -/
theorem C3_empty_path_never_fallback (publicNs markers : List String)
    (repo : Repo) (host : String) (i : Identity) :
    isFallback (resolve publicNs markers repo host "" i) = false := by
  unfold resolve
  rw [normalizeKey_empty]
  cases i <;> rfl

/-- C4: resolution is a deterministic function of the raw path, the
identity and the repository state — identical arguments with no intervening
repository mutation give identical results. -/
theorem C4_resolution_deterministic (publicNs markers : List String)
    (repo repo2 : Repo) (host raw raw2 : String) (i i2 : Identity)
    (hraw : raw = raw2) (hi : i = i2) (hrepo : repo = repo2) :
    resolve publicNs markers repo host raw i
      = resolve publicNs markers repo2 host raw2 i2 := by
  subst hraw; subst hi; subst hrepo; rfl

/-- C4 witness: two identical calls at a concrete path and identity agree. -/
theorem C4_witness :
    resolve [] [] [(("global", "docs"), "https://d")] "go" "docs" .anonymous
      = resolve [] [] [(("global", "docs"), "https://d")] "go" "docs" .anonymous :=
  C4_resolution_deterministic [] [] [(("global", "docs"), "https://d")]
    [(("global", "docs"), "https://d")] "go" "docs" "docs" .anonymous .anonymous
    rfl rfl rfl

lemma mem_dedupAux {α : Type} [DecidableEq α] (a : α) (l : List α) :
    ∀ seen : List α, a ∈ dedupAux seen l ↔ a ∈ l ∧ a ∉ seen := by
  induction l with
  | nil => intro seen; simp [dedupAux]
  | cons b bs ih =>
    intro seen
    by_cases h : b ∈ seen
    · simp only [dedupAux, if_pos h, ih]
      constructor
      · rintro ⟨ha, hs⟩
        exact ⟨List.mem_cons_of_mem _ ha, hs⟩
      · rintro ⟨ha, hs⟩
        rcases List.mem_cons.mp ha with rfl | ha
        · exact absurd h hs
        · exact ⟨ha, hs⟩
    · simp only [dedupAux, if_neg h]
      constructor
      · intro hmem
        rcases List.mem_cons.mp hmem with rfl | hmem
        · exact ⟨List.mem_cons_self _ _, h⟩
        · obtain ⟨ha, hs⟩ := (ih _).mp hmem
          exact ⟨List.mem_cons_of_mem _ ha,
            fun hx => hs (List.mem_cons_of_mem _ hx)⟩
      · rintro ⟨ha, hs⟩
        by_cases hab : a = b
        · subst hab; exact List.mem_cons_self _ _
        · rcases List.mem_cons.mp ha with h1 | h1
          · exact absurd h1 hab
          · refine List.mem_cons_of_mem _ ((ih _).mpr ⟨h1, ?_⟩)
            intro hx
            rcases List.mem_cons.mp hx with h2 | h2
            · exact hab h2
            · exact hs h2

lemma dedupAux_sublist {α : Type} [DecidableEq α] (l : List α) :
    ∀ seen : List α, List.Sublist (dedupAux seen l) l := by
  induction l with
  | nil => intro seen; simp [dedupAux]
  | cons b bs ih =>
    intro seen
    by_cases h : b ∈ seen
    · simp only [dedupAux, if_pos h]
      exact (ih seen).trans (List.sublist_cons_self _ _)
    · simp only [dedupAux, if_neg h]
      exact List.Sublist.cons₂ _ (ih _)

lemma nodup_dedupAux {α : Type} [DecidableEq α] (l : List α) :
    ∀ seen : List α, (dedupAux seen l).Nodup := by
  induction l with
  | nil => intro seen; simp [dedupAux]
  | cons b bs ih =>
    intro seen
    by_cases h : b ∈ seen
    · simpa only [dedupAux, if_pos h] using ih seen
    · simp only [dedupAux, if_neg h, List.nodup_cons]
      exact ⟨fun hx => ((mem_dedupAux b bs _).mp hx).2 (List.mem_cons_self _ _),
        ih _⟩

/-- C6: the scope resolver's output is an ordered, deduplicated sequence —
a sublist of "hint, personal, organizations in membership order, global",
containing exactly those namespaces, with `global` last; the explicit hint
(when readable) is first; an anonymous identity gets only `global` plus a
public explicit hint. -/
theorem C6_scope_resolver_order (publicNs : List String) (p h : String)
    (orgs : List String) (i : Identity) (hint : Option String) :
    List.Sublist (scopeOrder publicNs i hint)
      (frontPart publicNs i hint ++ ["global"])
  ∧ (scopeOrder publicNs i hint).Nodup
  ∧ (∀ ns, ns ∈ scopeOrder publicNs i hint ↔
      (ns ∈ frontPart publicNs i hint ∨ ns = "global"))
  ∧ (scopeOrder publicNs i hint).getLast? = some "global"
  ∧ List.Sublist (scopeOrder publicNs (.user p orgs) hint)
      (hintPart publicNs (.user p orgs) hint ++ (p :: orgs) ++ ["global"])
  ∧ scopeOrder publicNs .anonymous none = ["global"]
  ∧ (h ∈ publicNs → h ≠ "global" →
      scopeOrder publicNs .anonymous (some h) = [h, "global"])
  ∧ (h ∉ publicNs → scopeOrder publicNs .anonymous (some h) = ["global"])
  ∧ (readableBy publicNs i h = true → h ≠ "global" →
      (scopeOrder publicNs i (some h)).head? = some h) := by
  have hsub : ∀ (j : Identity) (hj : Option String),
      List.Sublist (scopeOrder publicNs j hj)
        (frontPart publicNs j hj ++ ["global"]) := by
    intro j hj
    exact List.Sublist.append
      ((List.filter_sublist _).trans (dedupAux_sublist _ _))
      (List.Sublist.refl _)
  refine ⟨hsub i hint, ?_, ?_, ?_, ?_, rfl, ?_, ?_, ?_⟩
  · rw [scopeOrder, List.nodup_append]
    refine ⟨List.Nodup.filter _ (nodup_dedupAux _ _), by simp, ?_⟩
    intro a ha hb
    have := (List.mem_filter.mp ha).2
    simp only [List.mem_singleton] at hb
    simp [hb] at this
  · intro ns
    by_cases hg : ns = "global"
    · simp [scopeOrder, hg]
    · simp [scopeOrder, List.mem_filter, dedup, mem_dedupAux, hg]
  · exact getLast?_append_singleton _ _
  · simpa [frontPart, List.append_assoc] using hsub (.user p orgs) hint
  · intro hmem hne
    simp [scopeOrder, frontPart, hintPart, readableBy, dedup, dedupAux, hmem,
      hne]
  · intro hmem
    simp [scopeOrder, frontPart, hintPart, readableBy, dedup, dedupAux, hmem]
  · intro hr hne
    simp [scopeOrder, frontPart, hintPart, hr, dedup, dedupAux, hne]

/-- C6 witness: concrete scope chains — a public hint for an anonymous
identity, and a user chain ending in `global`. -/
theorem C6_witness :
    scopeOrder ["pub"] .anonymous (some "pub") = ["pub", "global"]
  ∧ (scopeOrder [] (.user "u1" ["o1"]) none).getLast? = some "global" :=
  ⟨(C6_scope_resolver_order ["pub"] "p" "pub" [] .anonymous
      (some "pub")).2.2.2.2.2.2.1 (by decide) (by decide),
   (C6_scope_resolver_order [] "u1" "h" ["o1"] (.user "u1" ["o1"])
      none).2.2.2.1⟩

lemma headD_take_succ (segs : List String) (m : Nat) :
    ((segs.take (m + 1)).headD "") = segs.headD "" := by
  cases segs <;> simp

lemma drop_one_take_succ (segs : List String) (m : Nat) :
    (segs.take (m + 1)).drop 1 = (segs.drop 1).take m := by
  cases segs <;> simp

lemma drop_one_drop (segs : List String) (m : Nat) :
    (segs.drop 1).drop m = segs.drop (m + 1) := by
  cases segs <;> simp

lemma substTokens_eq (ts : List TplToken) :
    ∀ segs : List String,
      substTokens ts segs
        = (renderSpec ts (segs.take (countPH ts)), segs.drop (countPH ts)) := by
  induction ts with
  | nil => intro segs; simp [substTokens, renderSpec, countPH]
  | cons t ts ih =>
    intro segs
    cases t with
    | ph =>
      simp only [substTokens, renderSpec, countPH, ih (segs.drop 1)]
      rw [headD_take_succ, drop_one_take_succ, drop_one_drop]
    | ch c =>
      simp only [substTokens, renderSpec, countPH, ih segs]

/-- C7: for a wildcard-free template with `n` positional placeholders, the
expander splits the suffix on `/`, renders the template with the first `n`
segments substituted for the placeholders in order (the empty string once
segments run out), and appends every segment beyond the `n`-th as an
additional path suffix; the take/drop split shows no segment is dropped. -/
theorem C7_positional_expansion (template suffix : String)
    (hw : hasWildcard template = false)
    (hph : 0 < numPlaceholders template) :
    expandCore template suffix
      = renderSpec (tokenize template.data)
          ((suffixSegs suffix).take (numPlaceholders template))
        ++ extraSuffix ((suffixSegs suffix).drop (numPlaceholders template))
  ∧ (suffixSegs suffix).take (numPlaceholders template)
      ++ (suffixSegs suffix).drop (numPlaceholders template)
      = suffixSegs suffix := by
  constructor
  · rw [expandCore]
    simp only [hw, Bool.false_eq_true, if_false, if_pos hph,
      substTokens_eq (tokenize template.data) (suffixSegs suffix)]
    rfl
  · exact List.take_append_drop _ _

/-- C7 witness: `https://ex.com/%s/%s` with suffix `a/b/c` substitutes `a`
and `b` and appends `/c`. -/
theorem C7_witness :
    expandCore "https://ex.com/%s/%s" "a/b/c"
      = renderSpec (tokenize "https://ex.com/%s/%s".data)
          ((suffixSegs "a/b/c").take (numPlaceholders "https://ex.com/%s/%s"))
        ++ extraSuffix
          ((suffixSegs "a/b/c").drop (numPlaceholders "https://ex.com/%s/%s"))
  ∧ (suffixSegs "a/b/c").take (numPlaceholders "https://ex.com/%s/%s")
      ++ (suffixSegs "a/b/c").drop (numPlaceholders "https://ex.com/%s/%s")
      = suffixSegs "a/b/c" :=
  C7_positional_expansion "https://ex.com/%s/%s" "a/b/c" (by decide) (by decide)

lemma joinSegs_nil : joinSegs [] = "" := rfl

lemma lookup_cons_ne (repo : Repo) (p k d ns k' : String) (h : ns ≠ p) :
    lookup (((p, k), d) :: repo) ns k' = lookup repo ns k' := by
  simp only [lookup]
  rw [if_neg]
  rintro ⟨rfl, -⟩
  exact h rfl

lemma filterMap_lookup_cons (chain : List String) (repo : Repo)
    (p k d key : String) (g : String → String → Candidate)
    (h : p ∉ chain) :
    chain.filterMap (fun ns => (lookup (((p, k), d) :: repo) ns key).map (g ns))
      = chain.filterMap (fun ns => (lookup repo ns key).map (g ns)) := by
  induction chain with
  | nil => rfl
  | cons ns rest ih =>
    have hns : ns ≠ p := fun he => h (he ▸ List.mem_cons_self _ _)
    have hrest : p ∉ rest := fun hx => h (List.mem_cons_of_mem _ hx)
    simp only [List.filterMap_cons, lookup_cons_ne repo p k d ns key hns,
      ih hrest]

lemma candidatesFor_cons_notin (chain : List String) (repo : Repo)
    (segs : List String) (p k d : String) (h : p ∉ chain) :
    candidatesFor chain (((p, k), d) :: repo) segs
      = candidatesFor chain repo segs := by
  unfold candidatesFor
  generalize splitsDesc segs = L
  induction L with
  | nil => rfl
  | cons pr L ih =>
    simp only [List.flatMap_cons, ih]
    congr 1
    exact filterMap_lookup_cons chain repo p k d (joinSegs pr.1)
      (fun ns tpl => ⟨ns, joinSegs pr.1, tpl, joinSegs pr.2⟩) h

lemma resolve_cons_notin (publicNs markers : List String) (repo : Repo)
    (host rawv : String) (v : Identity) (p k d : String)
    (h : ∀ segs2 hint, normalizeKey markers rawv = (.key segs2, hint) →
      p ∉ scopeOrder publicNs v hint) :
    resolve publicNs markers (((p, k), d) :: repo) host rawv v
      = resolve publicNs markers repo host rawv v := by
  unfold resolve
  rcases hnorm : normalizeKey markers rawv with ⟨nk, hint⟩
  cases nk with
  | home => rfl
  | key segs2 =>
    show resolveCore _ (((p, k), d) :: repo) segs2 rawv
      = resolveCore _ repo segs2 rawv
    unfold resolveCore
    rw [candidatesFor_cons_notin _ _ _ _ _ _ (h segs2 hint hnorm)]

lemma splitsDesc_head (s : String) (rest : List String) :
    ∃ T, splitsDesc (s :: rest)
      = ((s :: rest, []) : List String × List String) :: T := by
  induction rest generalizing s with
  | nil => exact ⟨[], rfl⟩
  | cons r rs ih =>
    obtain ⟨T, hT⟩ := ih r
    refine ⟨T.map (fun pr => (s :: pr.1, pr.2)) ++ [([s], r :: rs)], ?_⟩
    have hdef : splitsDesc (s :: r :: rs)
        = (splitsDesc (r :: rs)).map (fun pr => (s :: pr.1, pr.2))
          ++ [([s], r :: rs)] := rfl
    rw [hdef, hT]
    simp

lemma resolve_personal_override (publicNs markers : List String)
    (repo₀ : Repo) (host raw : String) (p : String) (orgs : List String)
    (s : String) (rest : List String) (dP urlP : String)
    (hn : normalizeKey markers raw = (.key (s :: rest), none))
    (hp : p ≠ "global")
    (he : expand dP "" = .ok urlP) :
    resolve publicNs markers (((p, joinSegs (s :: rest)), dP) :: repo₀) host
      raw (.user p orgs) = .redirect urlP p (joinSegs (s :: rest)) := by
  obtain ⟨T, hT⟩ := splitsDesc_head s rest
  have hchain : scopeOrder publicNs (.user p orgs) none
      = p :: ((dedupAux [p] orgs).filter (fun ns => ns ≠ "global")
          ++ ["global"]) := by
    simp [scopeOrder, frontPart, hintPart, dedup, dedupAux, hp]
  unfold resolve
  rw [hn]
  show resolveCore _ _ _ _ = _
  unfold resolveCore candidatesFor
  rw [hchain, hT]
  simp [List.flatMap_cons, List.filterMap_cons, lookup, firstRedirect,
    joinSegs_nil, he]

/-- C5: a key stored in both the requester's personal namespace and the
global namespace resolves to the personal destination for its owner; and a
repository extended with that personal shortcut resolves identically to the
unextended repository for every identity whose scope chain does not contain
the owner's personal namespace — scope isolation. -/
theorem C5_personal_override_isolation
    (publicNs markers : List String) (repo₀ : Repo) (host raw : String)
    (p : String) (orgs : List String) (segs : List String)
    (dP dG urlP : String)
    (hn : normalizeKey markers raw = (.key segs, none))
    (hs : segs ≠ [])
    (hp : p ≠ "global")
    (hg : lookup repo₀ "global" (joinSegs segs) = some dG)
    (he : expand dP "" = .ok urlP) :
    resolve publicNs markers (((p, joinSegs segs), dP) :: repo₀) host raw
        (.user p orgs) = .redirect urlP p (joinSegs segs)
  ∧ ∀ (v : Identity) (rawv : String),
      (∀ segs2 hint, normalizeKey markers rawv = (.key segs2, hint) →
        p ∉ scopeOrder publicNs v hint) →
      resolve publicNs markers (((p, joinSegs segs), dP) :: repo₀) host rawv v
        = resolve publicNs markers repo₀ host rawv v := by
  obtain ⟨s, rest, rfl⟩ := List.exists_cons_of_ne_nil hs
  exact ⟨resolve_personal_override publicNs markers repo₀ host raw p orgs s
      rest dP urlP hn hp he,
    fun v rawv hv => resolve_cons_notin publicNs markers repo₀ host rawv v p
      (joinSegs (s :: rest)) dP hv⟩

/-- C5 witness: `docs` stored under the personal namespace `u1` and under
`global`; `u1` gets the personal destination, and the resolution of a
different user `u2` is unchanged by the personal entry. -/
theorem C5_witness :
    resolve [] [] [(("u1", joinSegs ["docs"]), "https://personal"),
        (("global", "docs"), "https://global")] "go" "docs" (.user "u1" [])
      = .redirect "https://personal" "u1" (joinSegs ["docs"])
  ∧ resolve [] [] [(("u1", joinSegs ["docs"]), "https://personal"),
        (("global", "docs"), "https://global")] "go" "docs" (.user "u2" [])
      = resolve [] [] [(("global", "docs"), "https://global")] "go" "docs"
          (.user "u2" []) := by
  have h := C5_personal_override_isolation [] []
    [(("global", "docs"), "https://global")] "go" "docs" "u1" [] ["docs"]
    "https://personal" "https://global" "https://personal"
    (by decide) (by decide) (by decide) (by decide) rfl
  refine ⟨h.1, h.2 (.user "u2" []) "docs" ?_⟩
  intro segs2 hint h2
  rw [show normalizeKey [] "docs"
      = ((.key ["docs"] : NormKey), (none : Option String)) from by decide]
    at h2
  injection h2 with h3 h4
  subst h4
  decide

/-- C8: a matched candidate whose stored template fails expansion is
skipped, not fatal: with a corrupt template under the personal namespace and
a valid one under `global`, resolution continues past the failure and
produces the global Redirect. -/
theorem C8_corrupt_template_skipped
    (publicNs markers : List String) (repo : Repo) (host raw : String)
    (p : String) (segs : List String) (tplBad tplGood urlGood : String)
    (hn : normalizeKey markers raw = (.key segs, none))
    (hs : segs ≠ [])
    (hp : p ≠ "global")
    (hb : lookup repo p (joinSegs segs) = some tplBad)
    (hg : lookup repo "global" (joinSegs segs) = some tplGood)
    (heb : expand tplBad "" = .error ())
    (heg : expand tplGood "" = .ok urlGood) :
    resolve publicNs markers repo host raw (.user p [])
      = .redirect urlGood "global" (joinSegs segs) := by
  obtain ⟨s, rest, rfl⟩ := List.exists_cons_of_ne_nil hs
  obtain ⟨T, hT⟩ := splitsDesc_head s rest
  have hchain : scopeOrder publicNs (.user p []) none = [p, "global"] := by
    simp [scopeOrder, frontPart, hintPart, dedup, dedupAux, hp]
  unfold resolve
  rw [hn]
  show resolveCore _ _ _ _ = _
  unfold resolveCore candidatesFor
  rw [hchain, hT]
  simp [List.flatMap_cons, List.filterMap_cons, hb, hg, firstRedirect,
    joinSegs_nil, heb, heg]

/-- C8 witness: a corrupt personal template for `docs` is skipped and the
valid global shortcut yields the Redirect. -/
theorem C8_witness :
    resolve [] [] [(("u1", "docs"), "corrupt"),
        (("global", "docs"), "https://global")] "go" "docs" (.user "u1" [])
      = .redirect "https://global" "global" (joinSegs ["docs"]) :=
  C8_corrupt_template_skipped [] []
    [(("u1", "docs"), "corrupt"), (("global", "docs"), "https://global")]
    "go" "docs" "u1" ["docs"] "corrupt" "https://global" "https://global"
    (by decide) (by decide) (by decide) (by decide) (by decide) rfl rfl
